import Mathlib

/-!
Shallow embedding of the micro-dca-vault contracts
(`src/contracts/src/MicroDcaVault.sol`, `src/contracts/src/VaultFactory.sol`,
which also contains the `Relayer` contract) in Lean 4.

Modelling conventions:
* Addresses are `Nat`; `0` is the zero address (`address(0)`).
* `uint256` values are `Nat`.  All contract arithmetic on the paths modelled
  here either cannot overflow 2^256 on-chain without astronomically large
  token supplies, or reverts on underflow; underflow reverts are modelled as
  explicit error checks before a truncated subtraction is taken.
* A reverting call is `Except.error e`; since the EVM rolls back all state
  of a reverted transaction, an error carries no post-state.
* The external DEX router is an opaque service: a call outcome is passed in
  as `routerOut : Option Nat` (`none` = the router reverted, `some out` =
  the router pulled the approved quote amount from the vault and credited
  `out` base tokens to the vault, returning `out` as `amounts[last]`).
* Token balances relevant to the claims are tracked as explicit fields:
  the vault's quote/base balances, the owner's base balance (the fee sink;
  the owner address is distinct from the vault address — the factory sets
  `owner = msg.sender`, which cannot be the not-yet-deployed vault), and
  the base-token allowance from the vault to the Relayer contract.
  Depositors' external wallet balances and approvals to the vault are
  assumed sufficient and are not tracked.
* ERC-4626/ERC-20 behaviour inherited from OpenZeppelin v5 is embedded
  directly: share conversion uses the virtual-offset formulas
  (`decimalsOffset = 0`), `deposit` rounds shares down, `withdraw` rounds
  shares up, `redeem` rounds assets down; `maxDeposit` is the whole uint256
  range, so with unbounded `Nat` the deposit bound check is vacuous.  The
  one revert on the zero-funding-independent deposit path is ERC-20
  `_mint`'s zero-address receiver check (`ERC20InvalidReceiver`), which is
  modelled; for `assets = 0` and a non-zero receiver the model is exact
  (a zero-value `transferFrom` always succeeds).
-/

/-- Custom errors of `src/contracts/src/libraries/Errors.sol`, plus the
implicit revert causes used on the modelled paths: `NoQuote` and `Slippage`
(string requires in `executeCycle`), OpenZeppelin's access/token errors,
and the arithmetic-underflow panic. -/
inductive Errors where
  | NotKeeper
  | IntervalNotElapsed
  | CapExceeded
  | Paused
  | ZeroAddress
  | InvalidParams
  | MetaTxExpired
  | NoQuote
  | Slippage
  | NotOwner
  | ArithmeticUnderflow
  | ExceededMaxWithdraw
  | ExceededMaxRedeem
  | InsufficientShares
  | TokenTransferFailed
  | InsufficientAllowance
  | InvalidReceiver
  | RouterRevert
deriving DecidableEq, Repr

/-- The six owner-mutable configuration fields of `MicroDcaVault`
(storage slots `intervalSeconds .. paused`). -/
structure Config where
  intervalSeconds : Nat
  maxSlippageBps : Nat
  perCycleQuoteCap : Nat
  feeBps : Nat
  keeper : Nat
  paused : Bool
deriving DecidableEq, Repr

/-- State of one `MicroDcaVault` instance: its configuration, owner, cycle
counters, the token balances it can observe, and the ERC-20 share ledger
inherited from ERC-4626 (`totalSupply` / `balanceOf`).
`relayerBaseAllowance` is the base-token allowance `allowance(vault, relayer)`;
the vault's code never grants any such allowance, so it is `0` in every
reachable state. -/
structure VaultState where
  cfg : Config
  owner : Nat
  lastExec : Nat
  totalFilledQuote : Nat
  totalFilledBase : Nat
  vaultQuoteBal : Nat
  vaultBaseBal : Nat
  ownerBaseBal : Nat
  relayerBaseAllowance : Nat
  totalSupply : Nat
  balanceOf : Nat → Nat

/-- `MicroDcaVault.totalAssets()`: quote balance plus base balance of the
vault, fresh at call time (the MVP 1:1 sum, no oracle). -/
def totalAssets (s : VaultState) : Nat :=
  s.vaultQuoteBal + s.vaultBaseBal

/-- `MicroDcaVault.getConfig()`: returns the six config fields. -/
def getConfig (s : VaultState) : Config :=
  s.cfg

/-- `MicroDcaVault.nextExecTime()`. -/
def nextExecTime (s : VaultState) : Nat :=
  s.lastExec + s.cfg.intervalSeconds

/-- `MicroDcaVault.setConfig(...)`: `onlyOwner`, then unconditionally
overwrites all six fields; no bounds validation of any kind. -/
def setConfig (s : VaultState) (caller : Nat)
    (i slip cap fee keeper : Nat) (paused : Bool) :
    Except Errors VaultState :=
  if caller ≠ s.owner then .error .NotOwner
  else .ok { s with cfg := ⟨i, slip, cap, fee, keeper, paused⟩ }

/-- `MicroDcaVault.executeCycle(quoteAmount, minOut, beneficiary)`.

Check order follows the source: the `notPaused` modifier runs first, then
the keeper check, the interval check, the cap check, the soft bound of
`quoteAmount` to the available quote balance with the `NoQuote` require,
the router call, the `Slippage` require, the fee transfer to the owner and
the `baseOut -= fee` subtraction, and finally the state update.
`beneficiary` is accepted but unused in the source and is omitted here.
The router outcome is the oracle argument `routerOut` (see header). -/
def executeCycle (s : VaultState) (caller now quoteAmount minOut : Nat)
    (routerOut : Option Nat) : Except Errors (Nat × VaultState) :=
  if s.cfg.paused then .error .Paused
  else if s.cfg.keeper ≠ 0 ∧ caller ≠ s.cfg.keeper then .error .NotKeeper
  else if now < s.lastExec + s.cfg.intervalSeconds then .error .IntervalNotElapsed
  else if quoteAmount > s.cfg.perCycleQuoteCap then .error .CapExceeded
  else
    let avail := s.vaultQuoteBal
    let qa := if quoteAmount > avail then avail else quoteAmount
    if qa = 0 then .error .NoQuote
    else
      match routerOut with
      | none => .error .RouterRevert
      | some out =>
        if out < minOut then .error .Slippage
        else
          let fee := out * s.cfg.feeBps / 10000
          -- `baseToken.safeTransfer(owner(), fee)` (vault balance after the
          -- swap credit is `vaultBaseBal + out`):
          if s.vaultBaseBal + out < fee then .error .TokenTransferFailed
          -- `baseOut -= fee` underflows when `fee > baseOut`:
          else if out < fee then .error .ArithmeticUnderflow
          else
            let baseOut := out - fee
            .ok (baseOut,
              { s with
                lastExec := now
                totalFilledQuote := s.totalFilledQuote + qa
                totalFilledBase := s.totalFilledBase + baseOut
                vaultQuoteBal := avail - qa
                vaultBaseBal := s.vaultBaseBal + out - fee
                ownerBaseBal := s.ownerBaseBal + fee })

/-- `VaultFactory.createVault(base, quote, intervalSeconds, maxSlippageBps,
perCycleQuoteCap, feeBps, keeper)` called by `sender` at time `now`, for a
factory deployed with router address `routerAddr`.

Validations follow the source; the deployment then runs the
`MicroDcaVault` constructor with arguments
`(router, base, quote, intervalSeconds, maxSlippageBps, perCycleQuoteCap,
feeBps, msg.sender)`.  The constructor has no keeper parameter and
`createVault` never writes the vault's `keeper` storage variable, so the
`keeper` argument is validated into nothing: the new vault's `keeper` is
the default `0` (permissionless) whatever was supplied. -/
def createVault (routerAddr base quote intervalSeconds maxSlippageBps
    perCycleQuoteCap feeBps keeper sender now : Nat) :
    Except Errors VaultState :=
  if base = 0 ∨ quote = 0 then .error .ZeroAddress
  else if base = quote then .error .InvalidParams
  else if intervalSeconds = 0 ∨ maxSlippageBps > 10000 ∨ feeBps > 10000 then
    .error .InvalidParams
  else if routerAddr = 0 then .error .ZeroAddress
  else
    let _ := keeper   -- accepted by the factory, dropped before deployment
    .ok { cfg := ⟨intervalSeconds, maxSlippageBps, perCycleQuoteCap, feeBps,
                  0, false⟩
          owner := sender
          lastExec := now
          totalFilledQuote := 0
          totalFilledBase := 0
          vaultQuoteBal := 0
          vaultBaseBal := 0
          ownerBaseBal := 0
          relayerBaseAllowance := 0
          totalSupply := 0
          balanceOf := fun _ => 0 }

/-- ERC-20 `_mint` on the share ledger: credit `n` shares to `a`. -/
def addShares (f : Nat → Nat) (a n : Nat) : Nat → Nat :=
  fun b => if b = a then f b + n else f b

/-- ERC-20 `_burn` balance write on the share ledger: debit `n` shares from
`a` (callers check `n ≤ f a` first). -/
def subShares (f : Nat → Nat) (a n : Nat) : Nat → Nat :=
  fun b => if b = a then f b - n else f b

/-- OpenZeppelin v5 `_convertToShares(assets, Math.Rounding.Floor)` with
`_decimalsOffset() = 0`: `assets * (totalSupply + 1) / (totalAssets + 1)`. -/
def convertToSharesDown (s : VaultState) (assets : Nat) : Nat :=
  assets * (s.totalSupply + 1) / (totalAssets s + 1)

/-- OpenZeppelin v5 `_convertToShares(assets, Math.Rounding.Ceil)`
(used by `previewWithdraw`). -/
def convertToSharesUp (s : VaultState) (assets : Nat) : Nat :=
  (assets * (s.totalSupply + 1) + totalAssets s) / (totalAssets s + 1)

/-- OpenZeppelin v5 `_convertToAssets(shares, Math.Rounding.Floor)`
(used by `previewRedeem` and `maxWithdraw`). -/
def convertToAssetsDown (s : VaultState) (shares : Nat) : Nat :=
  shares * (totalAssets s + 1) / (s.totalSupply + 1)

/-- ERC-4626 `deposit(assets, receiver)` called by `caller` (assumed funded
and approved; see header).  `maxDeposit` is the full uint256 range, so the
bound check never fires for `Nat`; `_deposit` then pulls the assets and
calls `_mint(receiver, shares)`, which reverts with `ERC20InvalidReceiver`
for `receiver = address(0)` regardless of the amount (the transaction
rolls back whole, so the check is placed first here).  Otherwise the call
succeeds: shares are `previewDeposit(assets)` rounded down, `assets` quote
tokens move into the vault, shares are minted to `receiver`.  There is no
zero-amount check anywhere on this path: `assets = 0` mints `0` shares and
succeeds for any non-zero receiver. -/
def deposit (s : VaultState) (caller receiver assets : Nat) :
    Except Errors (Nat × VaultState) :=
  let _ := caller
  if receiver = 0 then .error .InvalidReceiver
  else
    let shares := convertToSharesDown s assets
    .ok (shares,
      { s with
        vaultQuoteBal := s.vaultQuoteBal + assets
        totalSupply := s.totalSupply + shares
        balanceOf := addShares s.balanceOf receiver shares })

/-- ERC-4626 `withdraw(assets, receiver, owner)` with the share owner `o`
calling for themselves (the share-allowance path for third-party callers is
not needed by any claim).  Checks `assets ≤ maxWithdraw(o)`, burns
`previewWithdraw(assets)` shares rounded up, and pays `assets` quote tokens
out of the vault (the payout is always in the ERC-4626 asset, i.e. the
quote token). -/
def withdraw (s : VaultState) (o assets : Nat) :
    Except Errors (Nat × VaultState) :=
  if assets > convertToAssetsDown s (s.balanceOf o) then
    .error .ExceededMaxWithdraw
  else
    let shares := convertToSharesUp s assets
    if shares > s.balanceOf o then .error .InsufficientShares
    else if assets > s.vaultQuoteBal then .error .TokenTransferFailed
    else .ok (shares,
      { s with
        vaultQuoteBal := s.vaultQuoteBal - assets
        totalSupply := s.totalSupply - shares
        balanceOf := subShares s.balanceOf o shares })

/-- ERC-4626 `redeem(shares, receiver, owner)` with the share owner `o`
calling for themselves.  Checks `shares ≤ maxRedeem(o) = balanceOf(o)`,
computes `previewRedeem(shares)` rounded down, burns the shares and pays
the assets in quote tokens. -/
def redeem (s : VaultState) (o shares : Nat) :
    Except Errors (Nat × VaultState) :=
  if shares > s.balanceOf o then .error .ExceededMaxRedeem
  else
    let assets := convertToAssetsDown s shares
    if assets > s.vaultQuoteBal then .error .TokenTransferFailed
    else .ok (assets,
      { s with
        vaultQuoteBal := s.vaultQuoteBal - assets
        totalSupply := s.totalSupply - shares
        balanceOf := subShares s.balanceOf o shares })

/-- A signed execution intent of the `Relayer` contract (the `vault` field
is implicit: the model executes against one vault state). -/
structure Intent where
  quoteAmount : Nat
  minOut : Nat
  beneficiary : Nat
  deadline : Nat
  nonce : Nat
deriving DecidableEq, Repr

/-- State of the `Relayer` contract. -/
structure RelayerState where
  relayerFeeBps : Nat
  nonces : Nat → Nat

/-- `Relayer.executeMetaCycle(executeCycle, signature)` called by `caller`
(the gas payer) at time `now`, where the Relayer contract itself is
deployed at address `relayerAddr`.  ECDSA recovery over the EIP-712 hash is
abstracted: `signer` is the address the signature recovers to (recovery is
deterministic, so resubmitting the identical signed intent recovers the
identical `signer`).

Code order: deadline check, signer recovery, nonce check, nonce increment,
inner `vault.executeCycle` call (with the Relayer contract as
`msg.sender`), and on inner success the relayer fee transfer
`baseToken.safeTransferFrom(vault, caller, relayerFee)` — which spends the
vault's allowance to the relayer — then the `MetaTxExecuted` emit.  An
inner revert is rethrown verbatim; since the whole transaction then
reverts, the nonce increment persists only on overall success. -/
def executeMetaCycle (r : RelayerState) (v : VaultState)
    (relayerAddr caller now : Nat) (intent : Intent) (signer : Nat)
    (routerOut : Option Nat) :
    Except Errors (Nat × RelayerState × VaultState) :=
  if now > intent.deadline then .error .MetaTxExpired
  else if intent.nonce ≠ r.nonces signer then .error .InvalidParams
  else
    let r' : RelayerState :=
      { r with nonces := fun a => if a = signer then r.nonces a + 1 else r.nonces a }
    match executeCycle v relayerAddr now intent.quoteAmount intent.minOut routerOut with
    | .error e => .error e
    | .ok (baseOut, v') =>
      let relayerFee := baseOut * r.relayerFeeBps / 10000
      if relayerFee > 0 then
        -- `safeTransferFrom(vault, caller, relayerFee)`: OpenZeppelin ERC-20
        -- spends `allowance(vault, relayerAddr)` first, then moves balance.
        if v'.relayerBaseAllowance < relayerFee then .error .InsufficientAllowance
        else if v'.vaultBaseBal < relayerFee then .error .TokenTransferFailed
        else
          let _ := caller
          .ok (baseOut - relayerFee, r',
            { v' with
              relayerBaseAllowance := v'.relayerBaseAllowance - relayerFee
              vaultBaseBal := v'.vaultBaseBal - relayerFee })
      else .ok (baseOut, r', v')

/-! ## Concrete states used by the counterexamples and witnesses -/

/-- A funded, permissionless, unpaused vault (interval 60, cap 100,
`feeBps = 0`) holding 1000 quote tokens against 1000 shares. -/
def vMeta : VaultState :=
  { cfg := ⟨60, 50, 100, 0, 0, false⟩, owner := 9, lastExec := 0,
    totalFilledQuote := 0, totalFilledBase := 0, vaultQuoteBal := 1000,
    vaultBaseBal := 0, ownerBaseBal := 0, relayerBaseAllowance := 0,
    totalSupply := 1000, balanceOf := fun a => if a = 4 then 1000 else 0 }

/-- A relayer charging 100 bps (1%), all nonces at 0. -/
def rFee : RelayerState := ⟨100, fun _ => 0⟩

/-- A relayer charging 0 bps, all nonces at 0. -/
def rFree : RelayerState := ⟨0, fun _ => 0⟩

/-- Intent: swap 50, minOut 50, deadline 100, nonce 0. -/
def intent0 : Intent := ⟨50, 50, 4, 100, 0⟩

/-- Intent with a stale/future nonce 5. -/
def intent5 : Intent := ⟨50, 50, 4, 100, 5⟩

/-- Same vault as `vMeta` but with `feeBps = 10` and `paused := true`,
`keeper := 7`. -/
def vPaused : VaultState :=
  { vMeta with cfg := ⟨60, 50, 100, 10, 7, true⟩ }

/-- Vault holding 7 quote tokens against 3 shares, all owned by address 1
(address 1 deposited 3 and a third party then transferred 4 quote tokens
directly to the vault — a plain ERC-20 transfer, no vault operation). -/
def vDonated : VaultState :=
  { cfg := ⟨60, 50, 100, 10, 0, false⟩, owner := 9, lastExec := 0,
    totalFilledQuote := 0, totalFilledBase := 0, vaultQuoteBal := 7,
    vaultBaseBal := 0, ownerBaseBal := 0, relayerBaseAllowance := 0,
    totalSupply := 3, balanceOf := fun a => if a = 1 then 3 else 0 }

/-- Address 2 deposits 4, then address 1 makes three 1-token withdrawals,
then address 2 redeems the shares its deposit minted; returns
`(minted shares, redeemed assets)`. -/
def c5Run : Except Errors (Nat × Nat) :=
  match deposit vDonated 2 2 4 with
  | .error e => .error e
  | .ok (sh, s1) =>
    match withdraw s1 1 1 with
    | .error e => .error e
    | .ok (_, s2) =>
      match withdraw s2 1 1 with
      | .error e => .error e
      | .ok (_, s3) =>
        match withdraw s3 1 1 with
        | .error e => .error e
        | .ok (_, s4) =>
          match redeem s4 2 sh with
          | .error e => .error e
          | .ok (assets, _) => .ok (sh, assets)

/-! ## Claim theorems -/

/-- C1: `createVault` validates but never forwards its `keeper` argument —
the `MicroDcaVault` constructor takes no keeper — so the vault deployed for
a creator-supplied `keeper = 7` reports `keeper = 0` (permissionless) from
`getConfig()`, contradicting the claim (and the factory's own parameter
documentation and the repository test
`testExecuteCycleKeeperRestriction`, which expects `NotKeeper` for
non-keeper callers of such a vault). -/
theorem c1_factory_drops_keeper :
    ∃ vlt, createVault 1 10 20 60 50 100 10 7 9 0 = Except.ok vlt ∧
      (getConfig vlt).keeper = 0 ∧ (7 : Nat) ≠ 0 :=
  ⟨_, rfl, rfl, by decide⟩

/-- C2: a meta-cycle whose inner `executeCycle` succeeds (router output
10000, all vault checks pass, deadline and nonce checks pass) still
reverts whenever the relayer fee is positive, because
`safeTransferFrom(vault, caller, fee)` needs a base-token allowance from
the vault to the relayer and no code path ever grants one
(`relayerBaseAllowance = 0` in every reachable vault state). -/
theorem c2_meta_relayer_fee_always_reverts :
    (∃ p, executeCycle vMeta 8 60 50 50 (some 10000) = Except.ok p) ∧
    vMeta.relayerBaseAllowance = 0 ∧
    executeMetaCycle rFee vMeta 8 5 60 intent0 6 (some 10000) =
      Except.error Errors.InsufficientAllowance :=
  ⟨⟨_, rfl⟩, rfl, rfl⟩

/-- C3 counterexample: the owner calls `setConfig` with `feeBps = 20000`
and `maxSlippageBps = 20001`; the call succeeds and both stored values
exceed 10000, so `setConfig` does not preserve the claimed invariant. -/
theorem c3_setConfig_counterexample :
    ∃ v, setConfig vMeta 9 60 20001 100 20000 0 false = Except.ok v ∧
      10000 < (getConfig v).feeBps ∧ 10000 < (getConfig v).maxSlippageBps :=
  ⟨_, rfl, by decide, by decide⟩

/-- C4 counterexample: in a paused vault with `keeper = 7`, a call by
non-keeper address 5 fails with `Paused`, not `NotKeeper` — the `notPaused`
modifier runs before the keeper check, so the authorization check is not
the first check of `executeCycle`. -/
theorem c4_pause_precedes_keeper_counterexample :
    vPaused.cfg.keeper ≠ 0 ∧ (5 : Nat) ≠ vPaused.cfg.keeper ∧
    executeCycle vPaused 5 1000 50 50 (some 50) = Except.error Errors.Paused ∧
    Errors.Paused ≠ Errors.NotKeeper :=
  ⟨by decide, by decide, rfl, by decide⟩

/-- C5 counterexample: on `vDonated` (share price above 1:1), address 2
deposits `X = 4` and receives 2 shares; address 1 then makes three
1-token withdrawals (each burns a share rounded up, donating value to the
remaining holder); address 2's immediate redeem of its 2 minted shares,
with no intervening cycle, then returns 6 > 4 — not `≤ X`. -/
theorem c5_roundtrip_counterexample :
    c5Run = Except.ok (2, 6) ∧ ¬(6 ≤ 4) :=
  ⟨rfl, by decide⟩

/-- C6 counterexample: `deposit(0, receiver)` on a live vault is not
rejected — it succeeds, minting zero shares (a silent no-op). -/
theorem c6_zero_deposit_counterexample :
    ∃ s, deposit vMeta 3 3 0 = Except.ok (0, s) ∧
      (∀ e, deposit vMeta 3 3 0 ≠ Except.error e) :=
  ⟨_, rfl, fun _ h => by simp [deposit] at h⟩

/-- C6 amended: for every vault state and every non-zero receiver,
`deposit(0, receiver)` succeeds, mints zero shares, pulls no assets and
changes no balance — a silent no-op, not a rejected call.  (The only
rejection on this path is `receiver = address(0)`, ERC-20 `_mint`'s
zero-address check, which is independent of the amount.) -/
theorem c6_zero_deposit_noop (s : VaultState) (caller receiver : Nat)
    (hr : receiver ≠ 0) :
    ∃ s', deposit s caller receiver 0 = Except.ok (0, s') ∧
      s'.vaultQuoteBal = s.vaultQuoteBal ∧ s'.totalSupply = s.totalSupply ∧
      ∀ a, s'.balanceOf a = s.balanceOf a := by
  have hsh : convertToSharesDown s 0 = 0 := by
    simp [convertToSharesDown]
  use { s with vaultQuoteBal := s.vaultQuoteBal + 0, totalSupply := s.totalSupply + 0, balanceOf := addShares s.balanceOf receiver 0 }
  refine ⟨?_, ?_, ?_, ?_⟩
  · simp only [deposit]
    rw [if_neg hr, hsh]
  · simp
  · simp
  · intro a
    simp [addShares]

/-- Witness for `c6_zero_deposit_noop` at `vMeta` with receiver 3. -/
theorem c6_zero_deposit_noop_witness :
    (3 : Nat) ≠ 0 ∧
    (∃ s', deposit vMeta 3 3 0 = Except.ok (0, s') ∧
      s'.vaultQuoteBal = vMeta.vaultQuoteBal ∧
      s'.totalSupply = vMeta.totalSupply ∧
      ∀ a, s'.balanceOf a = vMeta.balanceOf a) :=
  ⟨by decide, c6_zero_deposit_noop vMeta 3 3 (by decide)⟩

/-- C4 amended: when the vault is not paused, a set keeper excludes every
other caller: `executeCycle` fails with `NotKeeper` for all argument
values.  (The pause check of the `notPaused` modifier runs first, so the
claim's "regardless of the pause flag" direction is false — see the
counterexample.) -/
theorem c4_notKeeper_amended (s : VaultState) (caller now qa mo : Nat)
    (ro : Option Nat) (hp : s.cfg.paused = false) (hk : s.cfg.keeper ≠ 0)
    (hc : caller ≠ s.cfg.keeper) :
    executeCycle s caller now qa mo ro = Except.error Errors.NotKeeper := by
  simp [executeCycle, hp, hk, hc]

/-- Witness for `c4_notKeeper_amended` at a concrete unpaused vault with
`keeper = 7` and caller 5. -/
theorem c4_notKeeper_amended_witness :
    ({ vMeta with cfg := ⟨60, 50, 100, 10, 7, false⟩ } : VaultState).cfg.paused
        = false ∧
    executeCycle { vMeta with cfg := ⟨60, 50, 100, 10, 7, false⟩ } 5 1000 50 50
        (some 50) = Except.error Errors.NotKeeper :=
  ⟨rfl, c4_notKeeper_amended _ 5 1000 50 50 (some 50) rfl
    (by decide) (by decide)⟩

/-- C3 amended: the bounds `maxSlippageBps ≤ 10000` and `feeBps ≤ 10000`
hold for every vault `createVault` deploys, and every vault operation other
than `setConfig` leaves the configuration untouched (so it preserves the
bounds); `setConfig` itself performs no validation and can break them (see
the counterexample). -/
theorem c3_bounds_amended :
    (∀ ra b q i sl cap fee k snd now v,
        createVault ra b q i sl cap fee k snd now = Except.ok v →
          (getConfig v).maxSlippageBps ≤ 10000 ∧ (getConfig v).feeBps ≤ 10000) ∧
    (∀ s c now qa mo ro b s',
        executeCycle s c now qa mo ro = Except.ok (b, s') →
          getConfig s' = getConfig s) ∧
    (∀ s c rcv a sh s',
        deposit s c rcv a = Except.ok (sh, s') → getConfig s' = getConfig s) ∧
    (∀ s o a sh s',
        withdraw s o a = Except.ok (sh, s') → getConfig s' = getConfig s) ∧
    (∀ s o sh y s',
        redeem s o sh = Except.ok (y, s') → getConfig s' = getConfig s) := by
  refine ⟨?_, ?_, ?_, ?_, ?_⟩
  · intro ra b q i sl cap fee k snd now v h
    simp only [createVault] at h
    split at h
    · exact Except.noConfusion h
    · split at h
      · exact Except.noConfusion h
      · split at h
        · exact Except.noConfusion h
        · split at h
          · exact Except.noConfusion h
          · rename_i hbound _
            cases h
            push_neg at hbound
            exact ⟨hbound.2.1, hbound.2.2⟩
  · intro s c now qa mo ro b s' h
    simp only [executeCycle] at h
    repeat' split at h
    all_goals first
      | exact Except.noConfusion h
      | (cases h; rfl)
  · intro s c rcv a sh s' h
    simp only [deposit] at h
    repeat' split at h
    all_goals first
      | exact Except.noConfusion h
      | (cases h; rfl)
  · intro s o a sh s' h
    simp only [withdraw] at h
    repeat' split at h
    all_goals first
      | exact Except.noConfusion h
      | (cases h; rfl)
  · intro s o sh y s' h
    simp only [redeem] at h
    repeat' split at h
    all_goals first
      | exact Except.noConfusion h
      | (cases h; rfl)

/-- Witness for `c3_bounds_amended`: instantiate the `createVault` conjunct
at a concrete successful creation and the `executeCycle` conjunct at a
concrete successful cycle. -/
theorem c3_bounds_amended_witness :
    (∃ v, createVault 1 10 20 60 50 100 10 7 9 0 = Except.ok v ∧
       (getConfig v).maxSlippageBps ≤ 10000 ∧ (getConfig v).feeBps ≤ 10000) ∧
    (∃ p, executeCycle vMeta 8 60 50 50 (some 10000) = Except.ok p ∧
       getConfig p.2 = getConfig vMeta) := by
  constructor
  · exact ⟨_, rfl, c3_bounds_amended.1 1 10 20 60 50 100 10 7 9 0 _ rfl⟩
  · exact ⟨_, rfl, c3_bounds_amended.2.1 vMeta 8 60 50 50 (some 10000) _ _ rfl⟩

/-- The vault of `vMeta` with a 10 bps protocol fee. -/
def vFee10 : VaultState :=
  { vMeta with cfg := ⟨60, 50, 100, 10, 0, false⟩ }

/-- The state `executeCycle vFee10 8 60 50 50 (some 10000)` produces. -/
def vFee10After : VaultState :=
  { cfg := ⟨60, 50, 100, 10, 0, false⟩, owner := 9, lastExec := 60,
    totalFilledQuote := 50, totalFilledBase := 9990, vaultQuoteBal := 950,
    vaultBaseBal := 9990, ownerBaseBal := 10, relayerBaseAllowance := 0,
    totalSupply := 1000, balanceOf := fun a => if a = 4 then 1000 else 0 }

/-- C7: every successful `executeCycle` with router output `out` returns
and Fill-records `out - floor(out * feeBps / 10000)`, credits the fee
`floor(out * feeBps / 10000)` to the owner's base balance, and increases
the vault's base balance by exactly the returned amount. -/
theorem c7_fee_conservation (s : VaultState) (caller now qa mo out b : Nat)
    (s' : VaultState)
    (h : executeCycle s caller now qa mo (some out) = Except.ok (b, s')) :
    b = out - out * s.cfg.feeBps / 10000 ∧
    s'.ownerBaseBal = s.ownerBaseBal + out * s.cfg.feeBps / 10000 ∧
    s'.vaultBaseBal = s.vaultBaseBal + b ∧
    s'.totalFilledBase = s.totalFilledBase + b := by
  simp only [executeCycle] at h
  repeat' split at h
  all_goals try exact Except.noConfusion h
  all_goals cases h
  all_goals refine ⟨rfl, rfl, ?_, rfl⟩
  all_goals dsimp only
  all_goals omega

/-- Witness for `c7_fee_conservation` at a concrete successful cycle with
`feeBps = 10` and router output 10000. -/
theorem c7_fee_conservation_witness :
    ∃ b s', executeCycle vFee10 8 60 50 50 (some 10000) = Except.ok (b, s') ∧
      b = 10000 - 10000 * 10 / 10000 ∧
      s'.ownerBaseBal = vFee10.ownerBaseBal + 10000 * 10 / 10000 := by
  have h : executeCycle vFee10 8 60 50 50 (some 10000) =
      Except.ok (9990, vFee10After) := rfl
  exact ⟨_, _, h, (c7_fee_conservation _ 8 60 50 50 10000 _ _ h).1,
    (c7_fee_conservation _ 8 60 50 50 10000 _ _ h).2.1⟩

/-- C9: for an unpaused vault and an authorized caller, `executeCycle`
at any time strictly before `lastExec + intervalSeconds` fails with
`IntervalNotElapsed`; at exactly `lastExec + intervalSeconds` the interval
check passes and the call succeeds, given an amount within the cap,
a positive amount covered by the vault's quote balance, a well-formed fee
(`feeBps ≤ 10000`, as every factory-created config has), and a router
output meeting `minOut`. -/
theorem c9_interval_gate (s : VaultState) (caller now qa mo out : Nat)
    (ro : Option Nat) (hp : s.cfg.paused = false)
    (hk : s.cfg.keeper = 0 ∨ caller = s.cfg.keeper) :
    (now < s.lastExec + s.cfg.intervalSeconds →
       executeCycle s caller now qa mo ro =
         Except.error Errors.IntervalNotElapsed) ∧
    (qa ≤ s.cfg.perCycleQuoteCap → 0 < qa → qa ≤ s.vaultQuoteBal →
     s.cfg.feeBps ≤ 10000 → mo ≤ out →
       ∃ b s', executeCycle s caller (s.lastExec + s.cfg.intervalSeconds)
           qa mo (some out) = Except.ok (b, s')) := by
  have hk' : ¬(s.cfg.keeper ≠ 0 ∧ caller ≠ s.cfg.keeper) := by tauto
  constructor
  · intro hlt
    simp [executeCycle, hp, hk', hlt]
  · intro hcap hpos hbal hfee hmin
    have hfl : out * s.cfg.feeBps / 10000 ≤ out := by
      calc out * s.cfg.feeBps / 10000
          ≤ out * 10000 / 10000 :=
            Nat.div_le_div_right (Nat.mul_le_mul_left out hfee)
        _ = out := Nat.mul_div_cancel out (by norm_num)
    simp only [executeCycle, hp, Bool.false_eq_true, if_false, hk',
      Nat.lt_irrefl]
    rw [if_neg (Nat.not_lt.mpr hcap), if_neg (Nat.not_lt.mpr hbal),
      if_neg (Nat.pos_iff_ne_zero.mp hpos), if_neg (Nat.not_lt.mpr hmin),
      if_neg (show ¬(s.vaultBaseBal + out < out * s.cfg.feeBps / 10000) by
        omega),
      if_neg (show ¬(out < out * s.cfg.feeBps / 10000) by omega)]
    exact ⟨_, _, rfl⟩

/-- Witness for `c9_interval_gate` on `vFee10` (`lastExec = 0`,
`intervalSeconds = 60`): at `t = 59` the cycle fails with
`IntervalNotElapsed`, at `t = 60` it succeeds. -/
theorem c9_interval_gate_witness :
    (59 : Nat) < vFee10.lastExec + vFee10.cfg.intervalSeconds ∧
    executeCycle vFee10 8 59 50 50 (some 10000) =
      Except.error Errors.IntervalNotElapsed ∧
    (∃ b s', executeCycle vFee10 8
        (vFee10.lastExec + vFee10.cfg.intervalSeconds) 50 50 (some 10000) =
        Except.ok (b, s')) := by
  refine ⟨by decide, ?_, ?_⟩
  · exact (c9_interval_gate vFee10 8 59 50 50 10000 (some 10000) rfl
      (Or.inl rfl)).1 (by decide)
  · exact (c9_interval_gate vFee10 8 59 50 50 10000 (some 10000) rfl
      (Or.inl rfl)).2 (by decide) (by decide) (by decide) (by decide)
      (by decide)

/-- C5 amended: a deposit of `X` followed immediately by redeeming the
minted shares, with no intervening operation of any kind, returns at most
`X` (both conversions round against the depositor), in every vault state.
The depositor `c` is non-zero, as `msg.sender` always is on-chain (a zero
receiver would be rejected by the mint, not by any share-math failure). -/
theorem c5_immediate_roundtrip_le (s : VaultState) (c X : Nat)
    (_hX : 0 < X) (hc : c ≠ 0) :
    ∃ sh s1, deposit s c c X = Except.ok (sh, s1) ∧
      ∃ y s2, redeem s1 c sh = Except.ok (y, s2) ∧ y ≤ X := by
  have h1 : convertToSharesDown s X * (totalAssets s + 1) ≤
      X * (s.totalSupply + 1) := by
    unfold convertToSharesDown
    exact Nat.div_mul_le_self _ _
  have h2 : convertToSharesDown s X * (s.vaultQuoteBal + X + s.vaultBaseBal + 1)
      ≤ X * (s.totalSupply + convertToSharesDown s X + 1) := by
    have e1 : s.vaultQuoteBal + X + s.vaultBaseBal + 1 =
        (totalAssets s + 1) + X := by
      unfold totalAssets
      omega
    calc convertToSharesDown s X * (s.vaultQuoteBal + X + s.vaultBaseBal + 1)
        = convertToSharesDown s X * (totalAssets s + 1) +
            convertToSharesDown s X * X := by rw [e1]; ring
      _ ≤ X * (s.totalSupply + 1) + convertToSharesDown s X * X :=
          Nat.add_le_add_right h1 _
      _ = X * (s.totalSupply + convertToSharesDown s X + 1) := by ring
  have h3 : convertToSharesDown s X * (s.vaultQuoteBal + X + s.vaultBaseBal + 1)
        / (s.totalSupply + convertToSharesDown s X + 1) ≤ X := by
    calc convertToSharesDown s X * (s.vaultQuoteBal + X + s.vaultBaseBal + 1)
          / (s.totalSupply + convertToSharesDown s X + 1)
        ≤ X * (s.totalSupply + convertToSharesDown s X + 1)
          / (s.totalSupply + convertToSharesDown s X + 1) :=
          Nat.div_le_div_right h2
      _ = X := Nat.mul_div_cancel X (by omega)
  have haddc : addShares s.balanceOf c (convertToSharesDown s X) c =
      s.balanceOf c + convertToSharesDown s X := by
    simp [addShares]
  use convertToSharesDown s X
  use { s with vaultQuoteBal := s.vaultQuoteBal + X, totalSupply := s.totalSupply + convertToSharesDown s X, balanceOf := addShares s.balanceOf c (convertToSharesDown s X) }
  refine ⟨?_, ?_⟩
  · simp only [deposit]
    rw [if_neg hc]
  simp only [redeem, totalAssets, convertToAssetsDown]
  rw [haddc]
  rw [if_neg (show ¬(convertToSharesDown s X >
      s.balanceOf c + convertToSharesDown s X) by omega)]
  rw [if_neg (show ¬(convertToSharesDown s X *
      (s.vaultQuoteBal + X + s.vaultBaseBal + 1) /
      (s.totalSupply + convertToSharesDown s X + 1) > s.vaultQuoteBal + X)
      by omega)]
  exact ⟨_, _, rfl, h3⟩

/-- Witness for `c5_immediate_roundtrip_le`: deposit 5 into `vMeta` and
redeem immediately. -/
theorem c5_immediate_roundtrip_le_witness :
    (0 < 5 ∧ (4 : Nat) ≠ 0) ∧
    (∃ sh s1, deposit vMeta 4 4 5 = Except.ok (sh, s1) ∧
      ∃ y s2, redeem s1 4 sh = Except.ok (y, s2) ∧ y ≤ 5) :=
  ⟨⟨by decide, by decide⟩,
    c5_immediate_roundtrip_le vMeta 4 5 (by decide) (by decide)⟩

/-- A successful `executeMetaCycle` implies the intent's nonce matched the
signer's stored nonce, and the post-state stores exactly that nonce plus
one, all other signers untouched. -/
theorem executeMetaCycle_ok_nonces (r : RelayerState) (v : VaultState)
    (ra caller now : Nat) (intent : Intent) (signer : Nat) (ro : Option Nat)
    (b : Nat) (r' : RelayerState) (v' : VaultState)
    (h : executeMetaCycle r v ra caller now intent signer ro =
      Except.ok (b, r', v')) :
    intent.nonce = r.nonces signer ∧
    r'.nonces signer = r.nonces signer + 1 ∧
    ∀ a, a ≠ signer → r'.nonces a = r.nonces a := by
  simp only [executeMetaCycle] at h
  repeat' split at h
  all_goals try exact Except.noConfusion h
  all_goals cases h
  all_goals exact ⟨by omega, by simp, fun a ha => by simp [ha]⟩

/-- C8: each successful `executeMetaCycle` increments the signer's nonce by
exactly one and changes no other signer's nonce; when the deadline check
passes, a nonce mismatch fails with `InvalidParams`; and replaying the
identical signed intent (same recovered signer, same nonce) after a
success always fails, whatever the vault state, time or router outcome of
the replay. -/
theorem c8_nonce_protocol (r : RelayerState) (v : VaultState)
    (ra caller now : Nat) (intent : Intent) (signer : Nat) (ro : Option Nat) :
    (∀ b r' v',
        executeMetaCycle r v ra caller now intent signer ro =
          Except.ok (b, r', v') →
        r'.nonces signer = r.nonces signer + 1 ∧
        ∀ a, a ≠ signer → r'.nonces a = r.nonces a) ∧
    (now ≤ intent.deadline → intent.nonce ≠ r.nonces signer →
        executeMetaCycle r v ra caller now intent signer ro =
          Except.error Errors.InvalidParams) ∧
    (∀ b r' v',
        executeMetaCycle r v ra caller now intent signer ro =
          Except.ok (b, r', v') →
        ∀ (v2 : VaultState) (now2 : Nat) (ro2 : Option Nat) p,
          executeMetaCycle r' v2 ra caller now2 intent signer ro2 ≠
            Except.ok p) := by
  refine ⟨?_, ?_, ?_⟩
  · intro b r' v' h
    exact (executeMetaCycle_ok_nonces r v ra caller now intent signer ro
      b r' v' h).2
  · intro hdl hnz
    simp only [executeMetaCycle]
    rw [if_neg (Nat.not_lt.mpr hdl), if_pos hnz]
  · intro b r' v' h v2 now2 ro2 p hcontra
    obtain ⟨p1, p2⟩ := p
    obtain ⟨p2a, p2b⟩ := p2
    have h1 := executeMetaCycle_ok_nonces r v ra caller now intent signer
      ro b r' v' h
    have h2 := executeMetaCycle_ok_nonces r' v2 ra caller now2 intent signer
      ro2 p1 p2a p2b hcontra
    omega

/-- Witness for `c8_nonce_protocol`: with all nonces at 0, the stale-nonce
intent `intent5` fails with `InvalidParams`, and a successful meta-cycle on
`intent0` (zero relayer fee) moves the signer's nonce to 1. -/
theorem c8_nonce_protocol_witness :
    ((60 : Nat) ≤ intent5.deadline ∧ intent5.nonce ≠ rFree.nonces 6) ∧
    executeMetaCycle rFree vMeta 8 5 60 intent5 6 (some 10000) =
      Except.error Errors.InvalidParams ∧
    (∃ p, executeMetaCycle rFree vMeta 8 5 60 intent0 6 (some 10000) =
      Except.ok p ∧ p.2.1.nonces 6 = 1) := by
  refine ⟨⟨by decide, by decide⟩, ?_, ⟨_, rfl, rfl⟩⟩
  exact (c8_nonce_protocol rFree vMeta 8 5 60 intent5 6
    (some 10000)).2.1 (by decide) (by decide)

/-- The state `s` with `maxSlippageBps` replaced by `v` (all other fields
unchanged). -/
def setSlippage (s : VaultState) (v : Nat) : VaultState :=
  { s with cfg := { s.cfg with maxSlippageBps := v } }

theorem setSlippage_balanceOf (s : VaultState) (v : Nat) :
    (setSlippage s v).balanceOf = s.balanceOf := rfl

theorem setSlippage_vaultQuoteBal (s : VaultState) (v : Nat) :
    (setSlippage s v).vaultQuoteBal = s.vaultQuoteBal := rfl

theorem convertToAssetsDown_setSlippage (s : VaultState) (v x : Nat) :
    convertToAssetsDown (setSlippage s v) x = convertToAssetsDown s x := rfl

theorem convertToSharesUp_setSlippage (s : VaultState) (v x : Nat) :
    convertToSharesUp (setSlippage s v) x = convertToSharesUp s x := rfl

/-- C10: the stored `maxSlippageBps` value is dead configuration — read by
no operation except `getConfig`: every vault operation behaves identically
on two states differing only in that field, and its result states again
differ only in that field; `setConfig` overwrites it, and `getConfig`
differs exactly in that component. -/
theorem c10_maxSlippage_independent (s : VaultState) (v : Nat) :
    (∀ caller now qa mo ro,
        executeCycle (setSlippage s v) caller now qa mo ro =
          (executeCycle s caller now qa mo ro).map
            (fun p => (p.1, setSlippage p.2 v))) ∧
    (∀ caller i sl cap fee k pz,
        setConfig (setSlippage s v) caller i sl cap fee k pz =
          setConfig s caller i sl cap fee k pz) ∧
    (∀ caller rcv a,
        deposit (setSlippage s v) caller rcv a =
          (deposit s caller rcv a).map (fun p => (p.1, setSlippage p.2 v))) ∧
    (∀ o a,
        withdraw (setSlippage s v) o a =
          (withdraw s o a).map (fun p => (p.1, setSlippage p.2 v))) ∧
    (∀ o sh,
        redeem (setSlippage s v) o sh =
          (redeem s o sh).map (fun p => (p.1, setSlippage p.2 v))) ∧
    nextExecTime (setSlippage s v) = nextExecTime s ∧
    totalAssets (setSlippage s v) = totalAssets s ∧
    getConfig (setSlippage s v) = { getConfig s with maxSlippageBps := v } := by
  refine ⟨?_, ?_, ?_, ?_, ?_, rfl, rfl, rfl⟩
  · intro caller now qa mo ro
    simp only [executeCycle, setSlippage]
    repeat' split
    all_goals rfl
  · intro caller i sl cap fee k pz
    simp only [setConfig, setSlippage]
  · intro caller rcv a
    simp only [deposit, setSlippage]
    repeat' split
    all_goals rfl
  · intro o a
    simp only [withdraw, convertToAssetsDown_setSlippage,
      convertToSharesUp_setSlippage, setSlippage_balanceOf,
      setSlippage_vaultQuoteBal]
    repeat' split
    all_goals rfl
  · intro o sh
    simp only [redeem, convertToAssetsDown_setSlippage,
      setSlippage_balanceOf, setSlippage_vaultQuoteBal]
    repeat' split
    all_goals rfl
